import Mathlib

/-!
Verification development for the Djanny-bday single-page video app.

This file gives a shallow embedding, in Lean 4, of the stateful and
string-rewriting logic of the repository:

* `useVideoPreloader` (video-element pool, LRU eviction of the preloaded
  map, retry-with-backoff, circuit breaker);
* `DjannyTokFeed` (touch / wheel / keyboard navigation with wraparound);
* `PasswordGate` (hardcoded password, 24h local-storage session);
* `AudioContext` (interaction / sound / mute flags);
* `useVideoLoader.convertDropboxUrl` and `VideoPlayer.getOptimizedVideoUrl`
  (hosting-provider URL rewriting).

Browser DOM objects are abstracted: an `HTMLVideoElement` is modelled by a
numeric identifier, JavaScript `Map`s by association lists in insertion
order, and timestamps (`Date.now()`) by naturals counting milliseconds.
Event-handler attachment, the `loadingTimeouts` registry and the
`preloadProgress` React state are pure DOM/UI plumbing referenced by no
claim and are elided from the state.  JavaScript string primitives
(`includes`, `replace` with a literal first-occurrence pattern, `split`)
are modelled character-exactly below.
-/

/-- JavaScript-style prefix test on character lists. -/
def isPrefixOfB : List Char → List Char → Bool
  | [], _ => true
  | _ :: _, [] => false
  | a :: as, b :: bs => a == b && isPrefixOfB as bs

/-- `containsSubChars needle hay` models `hay.includes(needle)`. -/
def containsSubChars (needle : List Char) : List Char → Bool
  | [] => isPrefixOfB needle []
  | c :: t => isPrefixOfB needle (c :: t) || containsSubChars needle t

/-- `replaceFirstChars s pat repl` models `s.replace(pat, repl)` for a
nonempty literal pattern: the first occurrence of `pat` is replaced. -/
def replaceFirstChars : List Char → List Char → List Char → List Char
  | [], _, _ => []
  | c :: t, pat, repl =>
    if isPrefixOfB pat (c :: t) then repl ++ (c :: t).drop pat.length
    else c :: replaceFirstChars t pat repl

/-- Locate the first occurrence of `sep`: returns the part strictly before
it and the part strictly after it. -/
def findSplit (sep : List Char) : List Char → Option (List Char × List Char)
  | [] => none
  | c :: t =>
    if isPrefixOfB sep (c :: t) then some ([], (c :: t).drop sep.length)
    else
      match findSplit sep t with
      | none => none
      | some (b, a) => some (c :: b, a)

/-- Fuel-driven worker for `splitOnSub`.  For a nonempty separator each
step strictly shortens the remaining text, so fuel `s.length + 1` is
always sufficient. -/
def splitOnSubAux (sep : List Char) : Nat → List Char → List (List Char)
  | 0, s => [s]
  | fuel + 1, s =>
    match findSplit sep s with
    | none => [s]
    | some (b, a) => b :: splitOnSubAux sep fuel a

/-- `splitOnSub sep s` models `s.split(sep)` for a nonempty literal
separator. -/
def splitOnSub (sep s : List Char) : List (List Char) :=
  splitOnSubAux sep (s.length + 1) s

/-- `jsIncludes s needle` models `s.includes(needle)`. -/
def jsIncludes (s needle : String) : Bool :=
  containsSubChars needle.toList s.toList

/-- `jsReplaceFirst s pat repl` models `s.replace(pat, repl)` with a
literal pattern (first occurrence only). -/
def jsReplaceFirst (s pat repl : String) : String :=
  (replaceFirstChars s.toList pat.toList repl.toList).asString

/-- `jsSplit s sep` models `s.split(sep)` for a nonempty separator. -/
def jsSplit (s sep : String) : List String :=
  (splitOnSub sep.toList s.toList).map List.asString

/-- Look a key up in an association list (JavaScript `Map.get`). -/
def lookupAssoc {β : Type} (l : List (String × β)) (k : String) : Option β :=
  match l.find? (fun p => p.1 == k) with
  | some p => some p.2
  | none => none

/-- JavaScript `Map.set`: replace the value in place when the key is
present, otherwise append at the end (insertion order). -/
def assocSet {β : Type} (k : String) (v : β) (l : List (String × β)) :
    List (String × β) :=
  if l.any (fun p => p.1 == k) then
    l.map (fun p => if p.1 == k then (k, v) else p)
  else l ++ [(k, v)]

/-- JavaScript `Map.delete`. -/
def assocDelete {β : Type} (k : String) (l : List (String × β)) :
    List (String × β) :=
  l.filter (fun p => p.1 ≠ k)

/-! ## useVideoPreloader: data model

The hook keeps, in refs: a map of preloaded videos, a pool of reusable
video elements (`available` array plus `inUse` map), the set of in-flight
preloads, a consecutive-failure counter, and the circuit-open deadline.
All operations are parametrised by `m : Bool` (`isMobileSafari()`), fixed
for a given browser session. -/

/-- Entry of the `preloadedVideos` map (interface `PreloadedVideo`); the
`element` field holds the identifier of the underlying video element. -/
structure PreloadedVideo where
  url : String
  element : Nat
  loaded : Bool
  lastUsed : Nat
  deriving DecidableEq, Repr

/-- The mutable state of `useVideoPreloader`: `preloaded` is the
`preloadedVideos` map, `available`/`inUse` the `videoPool`, `inFlight`
the key set of `inFlightPreloads`, plus the circuit-breaker refs.
`nextElemId` supplies fresh identifiers for `createVideoElement`. -/
structure PreloaderState where
  preloaded : List (String × PreloadedVideo)
  available : List Nat
  inUse : List (String × Nat)
  inFlight : List String
  consecutiveFailures : Nat
  circuitOpenUntil : Nat
  nextElemId : Nat
  deriving DecidableEq, Repr

/-- `MAX_PRELOADED_VIDEOS = isMobileSafari() ? 1 : 3`. -/
def MAX_PRELOADED_VIDEOS (m : Bool) : Nat := if m then 1 else 3

/-- `MAX_VIDEO_POOL_SIZE = isMobileSafari() ? 3 : 5`. -/
def MAX_VIDEO_POOL_SIZE (m : Bool) : Nat := if m then 3 else 5

/-- `isCircuitOpen`: `Date.now() < circuitOpenUntil.current`. -/
def isCircuitOpen (now : Nat) (st : PreloaderState) : Bool :=
  now < st.circuitOpenUntil

/-- `getVideoFromPool`: pop the last element of `available` if any,
otherwise create a fresh element (`createVideoElement`). -/
def getVideoFromPool (st : PreloaderState) : Nat × PreloaderState :=
  match st.available.getLast? with
  | some v => (v, { st with available := st.available.dropLast })
  | none => (st.nextElemId, { st with nextElemId := st.nextElemId + 1 })

/-- `returnVideoToPool(video, url)`: delete `url` from the in-use map and
push the element back onto `available` only if below
`MAX_VIDEO_POOL_SIZE` (the element's DOM cleanup has no state here). -/
def returnVideoToPool (m : Bool) (video : Nat) (url : String)
    (st : PreloaderState) : PreloaderState :=
  let st₁ := { st with inUse := assocDelete url st.inUse }
  if st₁.available.length < MAX_VIDEO_POOL_SIZE m then
    { st₁ with available := st₁.available ++ [video] }
  else st₁

/-- Comparator of `cleanupLRU`'s sort: `a[1].lastUsed - b[1].lastUsed`
sorts ascending by `lastUsed`. -/
def lastUsedLE (a b : String × PreloadedVideo) : Prop :=
  a.2.lastUsed ≤ b.2.lastUsed

instance : DecidableRel lastUsedLE := fun a b =>
  inferInstanceAs (Decidable (a.2.lastUsed ≤ b.2.lastUsed))

instance : IsTotal (String × PreloadedVideo) lastUsedLE :=
  ⟨fun a b => Nat.le_total a.2.lastUsed b.2.lastUsed⟩

instance : IsTrans (String × PreloadedVideo) lastUsedLE :=
  ⟨fun _ _ _ hab hbc => Nat.le_trans hab hbc⟩

/-- `cleanupLRU`: when the map holds more than `MAX_PRELOADED_VIDEOS`
entries, sort its entries ascending by `lastUsed` (a stable comparator
sort, modelled by insertion sort), and for each of the oldest
`entries.length - MAX_PRELOADED_VIDEOS` entries return its element to the
pool and delete it from the map.  Otherwise do nothing. -/
def cleanupLRU (m : Bool) (st : PreloaderState) : PreloaderState :=
  let entries := st.preloaded
  if entries.length ≤ MAX_PRELOADED_VIDEOS m then st
  else
    let sorted := entries.insertionSort lastUsedLE
    let toRemove := sorted.take (entries.length - MAX_PRELOADED_VIDEOS m)
    toRemove.foldl
      (fun s e =>
        let s₁ := returnVideoToPool m e.2.element e.1 s
        { s₁ with preloaded := assocDelete e.1 s₁.preloaded })
      st

/-- Synchronous outcome of a `preloadVideo(url)` call. -/
inductive PreloadResult where
  /-- The circuit is open: immediate `Promise.reject`. -/
  | rejectedCircuitOpen
  /-- The url is already loaded: immediate resolve with the cached
  element. -/
  | resolvedCached (elem : Nat)
  /-- A preload for this url is in flight: the identical promise is
  returned. -/
  | joinedInFlight
  /-- A new preload was started on the given element. -/
  | started (elem : Nat)
  deriving DecidableEq, Repr

/-- Tail of `preloadVideo` past the already-loaded check: deduplicate
against `inFlightPreloads`, otherwise take an element from the pool, mark
it in use and register the in-flight promise. -/
def preloadVideoStart (url : String) (st : PreloaderState) :
    PreloadResult × PreloaderState :=
  if st.inFlight.contains url then (.joinedInFlight, st)
  else
    let (video, st₁) := getVideoFromPool st
    (.started video,
     { st₁ with
        inUse := assocSet url video st₁.inUse,
        inFlight := st₁.inFlight ++ [url] })

/-- Synchronous part of `preloadVideo(url)`: reject at once when the
circuit is open; resolve with the cached element (touching `lastUsed`)
when the url is already loaded; otherwise `preloadVideoStart`. -/
def preloadVideo (now : Nat) (url : String) (st : PreloaderState) :
    PreloadResult × PreloaderState :=
  if isCircuitOpen now st then (.rejectedCircuitOpen, st)
  else
    match lookupAssoc st.preloaded url with
    | some pv =>
      if pv.loaded then
        (.resolvedCached pv.element,
         { st with
            preloaded := st.preloaded.map
              (fun p => if p.1 == url then (p.1, { p.2 with lastUsed := now })
                        else p) })
      else preloadVideoStart url st
    | none => preloadVideoStart url st

/-- `maxRetries = isMobileSafari() ? 1 : 2`. -/
def maxRetries (m : Bool) : Nat := if m then 1 else 2

/-- Outcome of one `handleError` invocation for the preload of a url. -/
inductive ErrorOutcome where
  /-- `retryCount < maxRetries`: the counter is bumped and a reload is
  scheduled after `delayMs` milliseconds. -/
  | scheduledRetry (newRetryCount : Nat) (delayMs : Nat)
  /-- The last retry has failed: terminal rejection. -/
  | terminalReject
  deriving DecidableEq, Repr

/-- Retry decision of `handleError`: when `retryCount < maxRetries`,
increment `retryCount` and schedule the reload after
`Math.pow(2, retryCount) * 1000` ms (computed after the increment);
otherwise fail terminally. -/
def handleErrorStep (m : Bool) (retryCount : Nat) : ErrorOutcome :=
  if retryCount < maxRetries m then
    .scheduledRetry (retryCount + 1) (2 ^ (retryCount + 1) * 1000)
  else .terminalReject

/-- Shared state effect of the two terminal-failure paths of a preload —
the `handleError` branch after the last retry (and, identically, the
loading-timeout callback): return the element to the pool, drop the
in-flight record, bump `consecutiveFailures`, and when that counter
reaches 2 open the circuit until `now` plus the cooldown
(`isMobileSafari() ? 15000 : 8000`). -/
def handleTerminalFailure (m : Bool) (now : Nat) (url : String)
    (video : Nat) (st : PreloaderState) : PreloaderState :=
  let st₁ := returnVideoToPool m video url st
  let st₂ := { st₁ with
    inFlight := st₁.inFlight.filter (· ≠ url),
    consecutiveFailures := st₁.consecutiveFailures + 1 }
  if st₂.consecutiveFailures ≥ 2 then
    { st₂ with circuitOpenUntil := now + (if m then 15000 else 8000) }
  else st₂

/-- State effect of the `canplay` handler for a preload of `url` on
element `video`: record the loaded entry, reset `consecutiveFailures` to
0 and drop the in-flight record. -/
def handleCanPlay (now : Nat) (url : String) (video : Nat)
    (st : PreloaderState) : PreloaderState :=
  { st with
    preloaded := assocSet url
      { url := url, element := video, loaded := true, lastUsed := now }
      st.preloaded,
    consecutiveFailures := 0,
    inFlight := st.inFlight.filter (· ≠ url) }

/-- `preloadVideos(urls)`: return `[]` at once when the circuit is open;
otherwise run `cleanupLRU` and issue `preloadVideo` for each url in
order.  (The chunking by `maxConcurrent` and the inter-chunk delays only
affect scheduling, not which calls are made or their order.) -/
def preloadVideos (m : Bool) (now : Nat) (urls : List String)
    (st : PreloaderState) : List PreloadResult × PreloaderState :=
  if isCircuitOpen now st then ([], st)
  else
    let st₁ := cleanupLRU m st
    urls.foldl
      (fun acc url =>
        let (r, s') := preloadVideo now url acc.2
        (acc.1 ++ [r], s'))
      (([] : List PreloadResult), st₁)

/-- `clearPreloadedVideos`: return every mapped element to the pool, then
clear the map. -/
def clearPreloadedVideos (m : Bool) (st : PreloaderState) :
    PreloaderState :=
  let st₁ := st.preloaded.foldl
    (fun s e => returnVideoToPool m e.2.element e.1 s) st
  { st₁ with preloaded := [] }

/-! ## DjannyTokFeed: navigation

`currentVideoIndex` lives in a `useState`; the handlers below compute its
next value.  JavaScript `%` on integers is truncating remainder, modelled
by `Int.tmod`; both operands it is applied to here are nonnegative, where
`tmod` and Euclidean `%` agree. -/

/-- `setCurrentVideoIndex(prev => (prev + 1) % videos.length)`. -/
def advanceIndex (n : Nat) (i : Int) : Int := Int.tmod (i + 1) n

/-- `setCurrentVideoIndex(prev => (prev - 1 + videos.length) % videos.length)`. -/
def retreatIndex (n : Nat) (i : Int) : Int := Int.tmod (i - 1 + n) n

/-- `handleTouchEnd`: ignore the gesture while scrolling or when the list
is empty; otherwise a vertical delta over 50px advances (finger moved up,
`deltaY > 0`) or retreats. -/
def handleTouchEnd (n : Nat) (isScrolling : Bool) (i : Int)
    (touchStartY touchEndY : Int) : Int :=
  if isScrolling || n == 0 then i
  else
    let deltaY := touchStartY - touchEndY
    if deltaY.natAbs > 50 then
      if deltaY > 0 then advanceIndex n i else retreatIndex n i
    else i

/-- `handleWheel`: ignore while scrolling or empty; `deltaY > 0` advances,
otherwise retreat. -/
def handleWheel (n : Nat) (isScrolling : Bool) (i : Int) (deltaY : Int) :
    Int :=
  if isScrolling || n == 0 then i
  else if deltaY > 0 then advanceIndex n i else retreatIndex n i

/-- The keys `handleKeyDown` distinguishes. -/
inductive FeedKey where
  | arrowDown
  | arrowUp
  | other
  deriving DecidableEq, Repr

/-- `handleKeyDown`: ignore while scrolling or empty; `ArrowDown`
advances, `ArrowUp` retreats, any other key leaves the index alone. -/
def handleKeyDown (n : Nat) (isScrolling : Bool) (i : Int) (k : FeedKey) :
    Int :=
  if isScrolling || n == 0 then i
  else
    match k with
    | .arrowDown => advanceIndex n i
    | .arrowUp => retreatIndex n i
    | .other => i

/-! ## PasswordGate -/

/-- `CORRECT_PASSWORD`. -/
def CORRECT_PASSWORD : String := "djanny2024"

/-- `SESSION_DURATION`: 24 hours in milliseconds. -/
def SESSION_DURATION : Nat := 24 * 60 * 60 * 1000

/-- Stored session (interface `AuthSession`); the timestamp is an integer
millisecond clock value. -/
structure AuthSession where
  authenticated : Bool
  timestamp : Int
  deriving DecidableEq, Repr

/-- What `localStorage.getItem(AUTH_KEY)` can yield: nothing, a string
`JSON.parse` rejects, or a parsed session. -/
inductive StoredAuth where
  | absent
  | unparsable
  | session (s : AuthSession)
  deriving DecidableEq, Repr

/-- The mount effect of `PasswordGate`: decide whether the stored session
grants access and what remains in local storage afterwards.  A session
is honoured when its flag is set and `now - timestamp <
SESSION_DURATION`; an expired or unparsable entry is removed. -/
def checkStoredSession (stored : StoredAuth) (now : Int) :
    Bool × StoredAuth :=
  match stored with
  | .absent => (false, .absent)
  | .unparsable => (false, .absent)
  | .session s =>
    if s.authenticated && decide (now - s.timestamp < (SESSION_DURATION : Int)) then
      (true, .session s)
    else (false, .absent)

/-- The component state touched by `handleSubmit`. -/
structure GateState where
  isAuthenticated : Bool
  password : String
  error : String
  storage : StoredAuth
  deriving DecidableEq, Repr

/-- The (delayed) body of `handleSubmit`: on the correct password store a
fresh authenticated session and authenticate; on a mismatch show the
error message and clear the input, leaving storage alone.  (`setError('')`
runs first in both branches.) -/
def handleSubmit (now : Int) (st : GateState) : GateState :=
  let st₀ := { st with error := "" }
  if st₀.password == CORRECT_PASSWORD then
    { st₀ with
        isAuthenticated := true,
        storage := .session { authenticated := true, timestamp := now } }
  else
    { st₀ with
        error := "Incorrect password. Please try again.",
        password := "" }

/-- The render of `PasswordGate` shows the gated children exactly when
`isAuthenticated` holds. -/
def rendersChildren (st : GateState) : Bool := st.isAuthenticated

/-! ## AudioContext -/

/-- The three `useState` flags of `AudioProvider`. -/
structure AudioState where
  hasUserInteracted : Bool
  hasEnabledSound : Bool
  isGloballyMuted : Bool
  deriving DecidableEq, Repr

/-- All three flags start `false`. -/
def initialAudioState : AudioState :=
  { hasUserInteracted := false, hasEnabledSound := false,
    isGloballyMuted := false }

/-- `markUserInteraction`. -/
def markUserInteraction (s : AudioState) : AudioState :=
  { s with hasUserInteracted := true }

/-- `enableSound`: set the session flag and mark the interaction. -/
def enableSound (s : AudioState) : AudioState :=
  markUserInteraction { s with hasEnabledSound := true }

/-- `toggleGlobalMute`: flip the mute flag; when the state was muted,
unmuting also enables sound. -/
def toggleGlobalMute (s : AudioState) : AudioState :=
  let s₁ := { s with isGloballyMuted := !s.isGloballyMuted }
  if s.isGloballyMuted then enableSound s₁ else s₁

/-- `shouldAutoplayWithSound = hasUserInteracted && hasEnabledSound &&
!isGloballyMuted`. -/
def shouldAutoplayWithSound (s : AudioState) : Bool :=
  s.hasUserInteracted && s.hasEnabledSound && !s.isGloballyMuted

/-! ## useVideoLoader: Dropbox URL rewriting -/

/-- `convertDropboxUrl(originalUrl)` (parametrised by the `isMobile`
user-agent test): for a Dropbox url carrying `dl=1`, the `raw=1` variant
is primary on mobile and fallback on desktop; any other url is returned
unchanged as both members. -/
def convertDropboxUrl (isMobile : Bool) (originalUrl : String) :
    String × String :=
  if jsIncludes originalUrl "dropbox.com" && jsIncludes originalUrl "dl=1" then
    let rawUrl := jsReplaceFirst originalUrl "dl=1" "raw=1"
    if isMobile then (rawUrl, originalUrl) else (originalUrl, rawUrl)
  else (originalUrl, originalUrl)

/-- Per-video step of `loadVideos`: `videoUrl` is the primary and
`alternativeUrl` is the fallback only when it differs from the primary
(`fallback !== primary ? fallback : undefined`). -/
def processVideoUrl (isMobile : Bool) (originalUrl : String) :
    String × Option String :=
  let pf := convertDropboxUrl isMobile originalUrl
  (pf.1, if pf.2 ≠ pf.1 then some pf.2 else none)

/-! ## VideoPlayer: Cloudinary URL optimizer

`getOptimizedVideoUrl` evaluates `originalUrl.split('/upload/')[1]`
before any case split; when the url has no `/upload/` that index is
`undefined` and the subsequent `.split('.')` throws a `TypeError`.  The
throw is modelled by `none`. -/

/-- `getOptimizedVideoUrl(originalUrl, retryAttempt)`. -/
def getOptimizedVideoUrl (originalUrl : String) (retryAttempt : Nat) :
    Option String :=
  let parts := jsSplit originalUrl "/upload/"
  match parts[1]? with
  | none => none
  | some part1 =>
    let baseUrl := parts.headD ""
    let publicId :=
      jsReplaceFirst ((jsSplit part1 ".").headD "")
        "f_auto,q_auto:good,fl_progressive/" ""
    some (match retryAttempt with
      | 0 => baseUrl ++ "/upload/f_auto,q_auto:good,fl_progressive/" ++ publicId
      | 1 => baseUrl ++ "/upload/f_auto,q_auto:low,fl_progressive/" ++ publicId
      | 2 => baseUrl ++ "/upload/f_mp4,q_auto:low/" ++ publicId ++ ".mp4"
      | _ + 3 => originalUrl)

/-! ## Helper lemmas -/

@[simp]
theorem returnVideoToPool_preloaded (m : Bool) (v : Nat) (u : String)
    (st : PreloaderState) :
    (returnVideoToPool m v u st).preloaded = st.preloaded := by
  simp only [returnVideoToPool]
  split <;> rfl

@[simp]
theorem returnVideoToPool_inFlight (m : Bool) (v : Nat) (u : String)
    (st : PreloaderState) :
    (returnVideoToPool m v u st).inFlight = st.inFlight := by
  simp only [returnVideoToPool]
  split <;> rfl

@[simp]
theorem returnVideoToPool_consecutiveFailures (m : Bool) (v : Nat)
    (u : String) (st : PreloaderState) :
    (returnVideoToPool m v u st).consecutiveFailures =
      st.consecutiveFailures := by
  simp only [returnVideoToPool]
  split <;> rfl

@[simp]
theorem returnVideoToPool_circuitOpenUntil (m : Bool) (v : Nat)
    (u : String) (st : PreloaderState) :
    (returnVideoToPool m v u st).circuitOpenUntil = st.circuitOpenUntil := by
  simp only [returnVideoToPool]
  split <;> rfl

@[simp]
theorem returnVideoToPool_inUse (m : Bool) (v : Nat) (u : String)
    (st : PreloaderState) :
    (returnVideoToPool m v u st).inUse = assocDelete u st.inUse := by
  simp only [returnVideoToPool]
  split <;> rfl

theorem returnVideoToPool_available (m : Bool) (v : Nat) (u : String)
    (st : PreloaderState) :
    (returnVideoToPool m v u st).available =
      if st.available.length < MAX_VIDEO_POOL_SIZE m
      then st.available ++ [v] else st.available := by
  simp only [returnVideoToPool]
  split <;> rfl

theorem lookupAssoc_assocDelete {β : Type} (k : String)
    (l : List (String × β)) : lookupAssoc (assocDelete k l) k = none := by
  unfold lookupAssoc assocDelete
  rw [List.find?_eq_none.mpr]
  intro p hp
  rcases List.mem_filter.mp hp with ⟨_, hne⟩
  simp only [beq_iff_eq]
  simpa using hne

theorem contains_filter_ne (l : List String) (u : String) :
    (l.filter (fun x => x ≠ u)).contains u = false := by
  induction l with
  | nil => rfl
  | cons a t ih =>
    by_cases h : a = u
    · simp [List.filter_cons, h, ih]
    · have h' : u ≠ a := fun e => h e.symm
      simp [List.filter_cons, h, List.contains_cons, h', ih]

/-- Preservation of a predicate along a left fold. -/
theorem foldl_preserve {α σ : Type} (P : σ → Prop) (f : σ → α → σ)
    (hf : ∀ s a, P s → P (f s a)) :
    ∀ (l : List α) (s : σ), P s → P (l.foldl f s) := by
  intro l
  induction l with
  | nil => intro s hs; exact hs
  | cons a t ih => intro s hs; exact ih (f s a) (hf s a hs)

/-! ## C8: autoplay-with-sound derivation -/

/-- C8.  At every state of the audio context, `shouldAutoplayWithSound`
is true iff the user has interacted, sound is enabled and the global
mute is off; all three flags start `false`, so autoplay never includes
sound before the user has both interacted and enabled sound. -/
theorem audio_autoplay_spec :
    (∀ s : AudioState, shouldAutoplayWithSound s = true ↔
      s.hasUserInteracted = true ∧ s.hasEnabledSound = true ∧
        s.isGloballyMuted = false) ∧
    initialAudioState.hasUserInteracted = false ∧
    initialAudioState.hasEnabledSound = false ∧
    initialAudioState.isGloballyMuted = false ∧
    (∀ s : AudioState,
      s.hasUserInteracted = false ∨ s.hasEnabledSound = false →
      shouldAutoplayWithSound s = false) := by
  refine ⟨?_, rfl, rfl, rfl, ?_⟩
  · intro s
    simp [shouldAutoplayWithSound, and_assoc]
  · intro s h
    rcases h with h | h <;> simp [shouldAutoplayWithSound, h]

/-- Witness for `audio_autoplay_spec` at a concrete state. -/
theorem audio_autoplay_spec_witness :
    shouldAutoplayWithSound
      { hasUserInteracted := false, hasEnabledSound := true,
        isGloballyMuted := false } = false :=
  audio_autoplay_spec.2.2.2.2
    { hasUserInteracted := false, hasEnabledSound := true,
      isGloballyMuted := false } (Or.inl rfl)

/-! ## C6: password gate -/

/-- C6.  A submitted password authenticates exactly when it equals the
hardcoded `'djanny2024'`; on mismatch the error message is shown, the
input cleared and storage untouched.  A stored session grants access on
load iff its flag is set and less than 24 hours have elapsed; expired or
unparsable sessions are removed.  The children render exactly when
authenticated. -/
theorem password_gate_spec :
    CORRECT_PASSWORD = "djanny2024" ∧
    SESSION_DURATION = 24 * 60 * 60 * 1000 ∧
    (∀ (now : Int) (st : GateState), st.isAuthenticated = false →
      ((handleSubmit now st).isAuthenticated = true ↔
        st.password = CORRECT_PASSWORD)) ∧
    (∀ (now : Int) (st : GateState), st.password = CORRECT_PASSWORD →
      handleSubmit now st =
        { st with
            isAuthenticated := true,
            error := "",
            storage := StoredAuth.session ⟨true, now⟩ }) ∧
    (∀ (now : Int) (st : GateState), st.password ≠ CORRECT_PASSWORD →
      (handleSubmit now st).isAuthenticated = st.isAuthenticated ∧
      (handleSubmit now st).error = "Incorrect password. Please try again." ∧
      (handleSubmit now st).password = "" ∧
      (handleSubmit now st).storage = st.storage) ∧
    (∀ (s : AuthSession) (now : Int),
      checkStoredSession (.session s) now =
        if s.authenticated = true ∧ now - s.timestamp < (SESSION_DURATION : Int)
        then (true, .session s) else (false, .absent)) ∧
    (∀ now : Int, checkStoredSession .absent now = (false, .absent) ∧
      checkStoredSession .unparsable now = (false, .absent)) ∧
    (∀ st : GateState, rendersChildren st = st.isAuthenticated) := by
  refine ⟨rfl, rfl, ?_, ?_, ?_, ?_, fun _ => ⟨rfl, rfl⟩, fun _ => rfl⟩
  · intro now st h
    unfold handleSubmit
    by_cases hp : st.password = CORRECT_PASSWORD <;> simp [hp, h]
  · intro now st h
    unfold handleSubmit
    simp [h]
  · intro now st h
    unfold handleSubmit
    simp [h]
  · intro s now
    unfold checkStoredSession
    by_cases ha : s.authenticated <;>
      by_cases ht : now - s.timestamp < (SESSION_DURATION : Int) <;>
        simp [ha, ht]

/-- Witness for `password_gate_spec` on a concrete mismatching submit. -/
theorem password_gate_spec_witness :
    (handleSubmit 0
      { isAuthenticated := false, password := "letmein", error := "",
        storage := .absent }).isAuthenticated = true ↔
      ("letmein" : String) = CORRECT_PASSWORD :=
  password_gate_spec.2.2.1 0
    { isAuthenticated := false, password := "letmein", error := "",
      storage := .absent } rfl

/-! ## C4: retry with backoff

The code's comment says the retry delays are `1s, 2s, 4s`, but the
delay is computed as `Math.pow(2, retryCount) * 1000` after
`retryCount++`, so the first retry is scheduled after 2000 ms and the
second after 4000 ms; a 1000 ms delay never occurs. -/

/-- C4 counterexample.  The first retry (desktop, `retryCount = 0` at
failure time) is scheduled after 2000 ms, not the 1000 ms announced by
the claim's `1s, 2s, 4s` reading: no retry is ever scheduled with a
1000 ms delay. -/
theorem retry_first_delay_not_one_second :
    handleErrorStep false 0 = .scheduledRetry 1 2000 ∧
    handleErrorStep false 0 ≠ .scheduledRetry 1 1000 ∧
    handleErrorStep true 0 ≠ .scheduledRetry 1 1000 := by
  refine ⟨rfl, by decide, by decide⟩

/-- C4 (amended).  `preloadVideo` retries at most `maxRetries` times
(1 on mobile Safari, 2 otherwise); the k-th retry, k counted from 1, is
scheduled after `2 ^ k * 1000` ms — 2 s then 4 s, not the 1 s, 2 s, 4 s
of the code's comment — and the rejection happens only once
`retryCount` has reached `maxRetries`, at which point the element is
handed back to the pool (`returnVideoToPool`) and the in-flight record
for the url is removed. -/
theorem retry_backoff_spec :
    maxRetries true = 1 ∧ maxRetries false = 2 ∧
    (∀ (m : Bool) (k : Nat), k < maxRetries m →
      handleErrorStep m k = .scheduledRetry (k + 1) (2 ^ (k + 1) * 1000)) ∧
    (∀ (m : Bool) (k : Nat), maxRetries m ≤ k →
      handleErrorStep m k = .terminalReject) ∧
    handleErrorStep false 0 = .scheduledRetry 1 2000 ∧
    handleErrorStep false 1 = .scheduledRetry 2 4000 ∧
    handleErrorStep false 2 = .terminalReject ∧
    handleErrorStep true 0 = .scheduledRetry 1 2000 ∧
    handleErrorStep true 1 = .terminalReject ∧
    (∀ (m : Bool) (now : Nat) (url : String) (video : Nat)
        (st : PreloaderState),
      lookupAssoc (handleTerminalFailure m now url video st).inUse url = none ∧
      (handleTerminalFailure m now url video st).inFlight.contains url = false ∧
      (handleTerminalFailure m now url video st).available =
        (returnVideoToPool m video url st).available) := by
  refine ⟨rfl, rfl, ?_, ?_, rfl, rfl, rfl, rfl, rfl, ?_⟩
  · intro m k hk
    unfold handleErrorStep
    simp [hk]
  · intro m k hk
    unfold handleErrorStep
    simp [Nat.not_lt.mpr hk]
  · intro m now url video st
    refine ⟨?_, ?_, ?_⟩
    · simp only [handleTerminalFailure]
      split <;> simp [lookupAssoc_assocDelete]
    · simp only [handleTerminalFailure]
      split <;> simp [contains_filter_ne]
    · simp only [handleTerminalFailure]
      split <;> rfl

/-- Witness for `retry_backoff_spec` at the concrete desktop inputs. -/
theorem retry_backoff_spec_witness :
    handleErrorStep false 1 = .scheduledRetry 2 (2 ^ 2 * 1000) :=
  retry_backoff_spec.2.2.1 false 1 (by decide)

/-! ## C1: circuit breaker -/

/-- C1.  Every terminal preload failure (final-retry error or loading
timeout, both modelled by `handleTerminalFailure`) increments the
consecutive-failure counter, and whenever the counter reaches 2 or more
the circuit opens until `now` plus the cooldown (15000 ms on mobile
Safari, 8000 ms otherwise); while the circuit is open `preloadVideo`
rejects immediately with the state untouched and `preloadVideos` returns
an empty list with the state untouched; a successful preload resets the
counter to 0. -/
theorem circuit_breaker_spec :
    (∀ (m : Bool) (now : Nat) (url : String) (video : Nat)
        (st : PreloaderState),
      (handleTerminalFailure m now url video st).consecutiveFailures =
        st.consecutiveFailures + 1 ∧
      (2 ≤ st.consecutiveFailures + 1 →
        (handleTerminalFailure m now url video st).circuitOpenUntil =
          now + (if m then 15000 else 8000)) ∧
      (st.consecutiveFailures + 1 < 2 →
        (handleTerminalFailure m now url video st).circuitOpenUntil =
          st.circuitOpenUntil)) ∧
    (∀ (now : Nat) (url : String) (st : PreloaderState),
      isCircuitOpen now st = true →
      preloadVideo now url st = (.rejectedCircuitOpen, st)) ∧
    (∀ (m : Bool) (now : Nat) (urls : List String) (st : PreloaderState),
      isCircuitOpen now st = true →
      preloadVideos m now urls st = ([], st)) ∧
    (∀ (now : Nat) (url : String) (video : Nat) (st : PreloaderState),
      (handleCanPlay now url video st).consecutiveFailures = 0) ∧
    (∀ (now : Nat) (st : PreloaderState),
      isCircuitOpen now st = true ↔ now < st.circuitOpenUntil) := by
  refine ⟨?_, ?_, ?_, fun _ _ _ _ => rfl, ?_⟩
  · intro m now url video st
    refine ⟨?_, ?_, ?_⟩
    · simp only [handleTerminalFailure]
      split <;> simp
    · intro h
      simp only [handleTerminalFailure]
      split
      · rfl
      · rename_i hcond
        exact absurd (by simpa using h) hcond
    · intro h
      simp only [handleTerminalFailure]
      split
      · rename_i hcond
        have : st.consecutiveFailures + 1 < 2 := h
        simp only [returnVideoToPool_consecutiveFailures] at hcond
        omega
      · simp
  · intro now url st h
    unfold preloadVideo
    simp [h]
  · intro m now urls st h
    unfold preloadVideos
    simp [h]
  · intro now st
    simp [isCircuitOpen]

/-- Witness for `circuit_breaker_spec`: with the circuit open until 100
and the clock at 50, a preload of any url rejects with the state
untouched. -/
theorem circuit_breaker_spec_witness :
    preloadVideo 50 "video.mp4"
      { preloaded := [], available := [], inUse := [], inFlight := [],
        consecutiveFailures := 2, circuitOpenUntil := 100, nextElemId := 0 } =
      (.rejectedCircuitOpen,
       { preloaded := [], available := [], inUse := [], inFlight := [],
         consecutiveFailures := 2, circuitOpenUntil := 100, nextElemId := 0 }) :=
  circuit_breaker_spec.2.1 50 "video.mp4"
    { preloaded := [], available := [], inUse := [], inFlight := [],
      consecutiveFailures := 2, circuitOpenUntil := 100, nextElemId := 0 }
    (by decide)

/-! ## C5: feed navigation with wraparound -/

theorem advanceIndex_eq_emod (n : Nat) (i : Int) (hi : 0 ≤ i) :
    advanceIndex n i = (i + 1) % (n : Int) :=
  Int.tmod_eq_emod (by omega) (by positivity)

theorem retreatIndex_eq_emod (n : Nat) (i : Int) (hn : 0 < n)
    (hi : 0 ≤ i) : retreatIndex n i = (i - 1 + n) % (n : Int) :=
  Int.tmod_eq_emod (by omega) (by positivity)

/-- C5.  With the index in range, an advance gesture (swipe up over the
50px threshold, wheel down, ArrowDown) sets the index to `(i + 1) % n`
and a retreat gesture (swipe down, wheel up, ArrowUp) to
`(i - 1 + n) % n`; the results stay in `[0, n)`, the last video wraps to
the first and the first back to the last, and no gesture moves the
index while `isScrolling` holds or the list is empty. -/
theorem feed_wraparound_spec :
    (∀ (n : Nat) (i sy ey : Int), 0 < n → (50 : Int) < sy - ey →
      handleTouchEnd n false i sy ey = advanceIndex n i) ∧
    (∀ (n : Nat) (i sy ey : Int), 0 < n → sy - ey < -50 →
      handleTouchEnd n false i sy ey = retreatIndex n i) ∧
    (∀ (n : Nat) (i d : Int), 0 < n → 0 < d →
      handleWheel n false i d = advanceIndex n i) ∧
    (∀ (n : Nat) (i d : Int), 0 < n → d < 0 →
      handleWheel n false i d = retreatIndex n i) ∧
    (∀ (n : Nat) (i : Int), 0 < n →
      handleKeyDown n false i .arrowDown = advanceIndex n i ∧
      handleKeyDown n false i .arrowUp = retreatIndex n i) ∧
    (∀ (n : Nat) (i : Int), 0 < n → 0 ≤ i → i < n →
      advanceIndex n i = (i + 1) % (n : Int) ∧
      retreatIndex n i = (i - 1 + n) % (n : Int) ∧
      0 ≤ advanceIndex n i ∧ advanceIndex n i < n ∧
      0 ≤ retreatIndex n i ∧ retreatIndex n i < n) ∧
    (∀ n : Nat, 0 < n →
      advanceIndex n ((n : Int) - 1) = 0 ∧
      retreatIndex n 0 = (n : Int) - 1) ∧
    (∀ (n : Nat) (i sy ey d : Int) (k : FeedKey),
      handleTouchEnd n true i sy ey = i ∧ handleWheel n true i d = i ∧
      handleKeyDown n true i k = i ∧
      handleTouchEnd 0 false i sy ey = i ∧ handleWheel 0 false i d = i ∧
      handleKeyDown 0 false i k = i) := by
  refine ⟨?_, ?_, ?_, ?_, ?_, ?_, ?_, ?_⟩
  · intro n i sy ey hn h
    have hne : n ≠ 0 := Nat.pos_iff_ne_zero.mp hn
    have habs : (sy - ey).natAbs > 50 := by omega
    have hpos : sy - ey > 0 := by omega
    simp [handleTouchEnd, hne, habs, hpos]
  · intro n i sy ey hn h
    have hne : n ≠ 0 := Nat.pos_iff_ne_zero.mp hn
    have habs : (sy - ey).natAbs > 50 := by omega
    have hneg : ¬ sy - ey > 0 := by omega
    simp [handleTouchEnd, hne, habs, hneg]
  · intro n i d hn h
    have hne : n ≠ 0 := Nat.pos_iff_ne_zero.mp hn
    simp [handleWheel, hne, h]
  · intro n i d hn h
    have hne : n ≠ 0 := Nat.pos_iff_ne_zero.mp hn
    have hneg : ¬ d > 0 := by omega
    simp [handleWheel, hne, hneg]
  · intro n i hn
    have hne : n ≠ 0 := Nat.pos_iff_ne_zero.mp hn
    exact ⟨by simp [handleKeyDown, hne], by simp [handleKeyDown, hne]⟩
  · intro n i hn hi hlt
    have hn0 : (n : Int) ≠ 0 := by positivity
    have hnp : (0 : Int) < n := by positivity
    refine ⟨advanceIndex_eq_emod n i hi, retreatIndex_eq_emod n i hn hi,
      ?_, ?_, ?_, ?_⟩
    · rw [advanceIndex_eq_emod n i hi]
      exact Int.emod_nonneg _ hn0
    · rw [advanceIndex_eq_emod n i hi]
      exact Int.emod_lt_of_pos _ hnp
    · rw [retreatIndex_eq_emod n i hn hi]
      exact Int.emod_nonneg _ hn0
    · rw [retreatIndex_eq_emod n i hn hi]
      exact Int.emod_lt_of_pos _ hnp
  · intro n hn
    have hnp : (0 : Int) < n := by positivity
    have hn0 : (n : Int) ≠ 0 := by positivity
    constructor
    · rw [advanceIndex_eq_emod n ((n : Int) - 1) (by omega)]
      simp
    · rw [retreatIndex_eq_emod n 0 hn le_rfl]
      rw [Int.emod_eq_of_lt (by omega) (by omega)]
      omega
  · intro n i sy ey d k
    refine ⟨rfl, rfl, rfl, ?_, ?_, ?_⟩
    · simp [handleTouchEnd]
    · simp [handleWheel]
    · simp [handleKeyDown]

/-- Witness for `feed_wraparound_spec`: wheel down on the last of three
videos wraps to the first. -/
theorem feed_wraparound_spec_witness :
    handleWheel 3 false 2 4 = advanceIndex 3 2 ∧ advanceIndex 3 2 = 0 :=
  ⟨feed_wraparound_spec.2.2.1 3 2 4 (by decide) (by decide), by decide⟩

/-! ## C7: Dropbox URL rewriting -/

theorem isPrefixOfB_length {pat s : List Char}
    (h : isPrefixOfB pat s = true) : pat.length ≤ s.length := by
  induction pat generalizing s with
  | nil => simp
  | cons a as ih =>
    cases s with
    | nil => simp [isPrefixOfB] at h
    | cons b bs =>
      simp only [isPrefixOfB, Bool.and_eq_true] at h
      simpa using ih h.2

theorem containsSubChars_length {pat s : List Char}
    (h : containsSubChars pat s = true) : pat.length ≤ s.length := by
  induction s with
  | nil =>
    simp only [containsSubChars] at h
    exact isPrefixOfB_length h
  | cons c t ih =>
    simp only [containsSubChars, Bool.or_eq_true] at h
    rcases h with h | h
    · exact isPrefixOfB_length h
    · exact le_trans (ih h) (by simp)

theorem replaceFirstChars_length (pat repl : List Char)
    (hpat : pat ≠ []) :
    ∀ s : List Char, containsSubChars pat s = true →
      (replaceFirstChars s pat repl).length =
        s.length - pat.length + repl.length := by
  intro s
  induction s with
  | nil =>
    intro h
    simp only [containsSubChars] at h
    exact absurd (List.length_eq_zero.mp
      (Nat.le_zero.mp (isPrefixOfB_length h))) hpat
  | cons c t ih =>
    intro h
    simp only [replaceFirstChars]
    by_cases hp : isPrefixOfB pat (c :: t) = true
    · have hle : pat.length ≤ (c :: t).length := isPrefixOfB_length hp
      simp only [hp, if_true, List.length_append, List.length_drop]
      omega
    · have h' : containsSubChars pat t = true := by
        simp only [containsSubChars, Bool.or_eq_true] at h
        rcases h with h | h
        · exact absurd h hp
        · exact h
      have hle : pat.length ≤ t.length := containsSubChars_length h'
      rw [if_neg hp]
      simp only [List.length_cons, ih h']
      omega

/-- Rewriting a url that contains `dl=1` changes it: the replacement is
one character longer than the original. -/
theorem jsReplaceFirst_dl_ne (url : String)
    (h : jsIncludes url "dl=1" = true) :
    jsReplaceFirst url "dl=1" "raw=1" ≠ url := by
  intro he
  have hlist : replaceFirstChars url.toList "dl=1".toList "raw=1".toList
      = url.toList := by
    have := congrArg String.toList he
    rwa [jsReplaceFirst, List.toList_asString] at this
  have hlen := replaceFirstChars_length "dl=1".toList "raw=1".toList
    (by decide) url.toList h
  rw [hlist] at hlen
  have h4 : ("dl=1".toList).length ≤ url.toList.length :=
    containsSubChars_length h
  simp only [show ("dl=1".toList).length = 4 from rfl,
    show ("raw=1".toList).length = 5 from rfl] at hlen h4
  omega

/-- C7.  For a url containing both `dropbox.com` and `dl=1`, the
converter returns the original and the `raw=1` rewrite, with the raw
variant primary exactly on mobile; any other url is passed through
unchanged as both members; `loadVideos` uses the primary as `videoUrl`
and sets `alternativeUrl` to the fallback exactly when it differs. -/
theorem dropbox_url_rewrite_spec :
    (∀ url : String,
      jsIncludes url "dropbox.com" = true → jsIncludes url "dl=1" = true →
      convertDropboxUrl true url = (jsReplaceFirst url "dl=1" "raw=1", url) ∧
      convertDropboxUrl false url = (url, jsReplaceFirst url "dl=1" "raw=1")) ∧
    (∀ (mob : Bool) (url : String),
      (jsIncludes url "dropbox.com" && jsIncludes url "dl=1") = false →
      convertDropboxUrl mob url = (url, url)) ∧
    (∀ (mob : Bool) (url : String),
      (processVideoUrl mob url).1 = (convertDropboxUrl mob url).1 ∧
      ((convertDropboxUrl mob url).2 = (convertDropboxUrl mob url).1 →
        (processVideoUrl mob url).2 = none) ∧
      ((convertDropboxUrl mob url).2 ≠ (convertDropboxUrl mob url).1 →
        (processVideoUrl mob url).2 = some (convertDropboxUrl mob url).2)) ∧
    (∀ url : String,
      jsIncludes url "dropbox.com" = true → jsIncludes url "dl=1" = true →
      ∀ mob : Bool,
        processVideoUrl mob url =
          if mob then (jsReplaceFirst url "dl=1" "raw=1", some url)
          else (url, some (jsReplaceFirst url "dl=1" "raw=1"))) := by
  refine ⟨?_, ?_, ?_, ?_⟩
  · intro url h1 h2
    constructor <;> simp [convertDropboxUrl, h1, h2]
  · intro mob url h
    simp only [convertDropboxUrl, h, Bool.false_eq_true, if_false]
  · intro mob url
    refine ⟨rfl, ?_, ?_⟩
    · intro h
      simp [processVideoUrl, h]
    · intro h
      simp [processVideoUrl, h]
  · intro url h1 h2 mob
    have hne := jsReplaceFirst_dl_ne url h2
    cases mob
    · simp [processVideoUrl, convertDropboxUrl, h1, h2, hne]
    · simp [processVideoUrl, convertDropboxUrl, h1, h2, Ne.symm hne]

/-- Witness for `dropbox_url_rewrite_spec` on a concrete Dropbox url. -/
theorem dropbox_url_rewrite_spec_witness :
    convertDropboxUrl true "https://www.dropbox.com/s/a/v.mp4?dl=1" =
      (jsReplaceFirst "https://www.dropbox.com/s/a/v.mp4?dl=1" "dl=1" "raw=1",
       "https://www.dropbox.com/s/a/v.mp4?dl=1") ∧
    convertDropboxUrl false "https://www.dropbox.com/s/a/v.mp4?dl=1" =
      ("https://www.dropbox.com/s/a/v.mp4?dl=1",
       jsReplaceFirst "https://www.dropbox.com/s/a/v.mp4?dl=1" "dl=1" "raw=1") :=
  dropbox_url_rewrite_spec.1 "https://www.dropbox.com/s/a/v.mp4?dl=1"
    (by decide) (by decide)

/-! ## C9: Cloudinary optimizer partiality -/

theorem splitOnSubAux_ne_nil (sep : List Char) (fuel : Nat)
    (s : List Char) : splitOnSubAux sep fuel s ≠ [] := by
  cases fuel with
  | zero => simp [splitOnSubAux]
  | succ f =>
    simp only [splitOnSubAux]
    cases findSplit sep s with
    | none => simp
    | some p => simp

theorem findSplit_isSome_iff_contains (sep : List Char) (hsep : sep ≠ []) :
    ∀ s : List Char, (findSplit sep s).isSome = containsSubChars sep s := by
  intro s
  induction s with
  | nil =>
    have : isPrefixOfB sep [] = false := by
      cases sep with
      | nil => exact absurd rfl hsep
      | cons a as => rfl
    simp [findSplit, containsSubChars, this]
  | cons c t ih =>
    simp only [findSplit, containsSubChars]
    by_cases hp : isPrefixOfB sep (c :: t) = true
    · simp [hp]
    · rw [if_neg hp]
      rw [Bool.not_eq_true] at hp
      rw [hp, Bool.false_or]
      rw [← ih]
      cases findSplit sep t with
      | none => rfl
      | some p => cases p; rfl

theorem two_le_splitOnSub_length_iff (sep s : List Char) :
    2 ≤ (splitOnSub sep s).length ↔ (findSplit sep s).isSome = true := by
  unfold splitOnSub
  simp only [splitOnSubAux]
  cases hfs : findSplit sep s with
  | none => simp
  | some p =>
    obtain ⟨b, a⟩ := p
    simp only [Option.isSome_some, List.length_cons, iff_true]
    have := splitOnSubAux_ne_nil sep s.length a
    have : 1 ≤ (splitOnSubAux sep s.length a).length :=
      Nat.one_le_iff_ne_zero.mpr (fun h => this (List.length_eq_zero.mp h))
    omega

theorem jsSplit_upload_isSome (url : String) :
    ((jsSplit url "/upload/")[1]?).isSome = jsIncludes url "/upload/" := by
  have hlen : (jsSplit url "/upload/").length =
      (splitOnSub "/upload/".toList url.toList).length := by
    simp [jsSplit]
  have h1 : ((jsSplit url "/upload/")[1]?).isSome =
      decide (1 < (jsSplit url "/upload/").length) := by
    by_cases h : 1 < (jsSplit url "/upload/").length
    · rw [List.getElem?_eq_getElem h]
      simp [h]
    · rw [List.getElem?_eq_none (by omega)]
      simp [h]
  rw [h1, hlen]
  by_cases hc : jsIncludes url "/upload/" = true
  · have : (findSplit "/upload/".toList url.toList).isSome = true := by
      rw [findSplit_isSome_iff_contains _ (by decide)]
      exact hc
    have := (two_le_splitOnSub_length_iff "/upload/".toList url.toList).mpr this
    simp only [hc]
    exact decide_eq_true (by omega)
  · rw [Bool.not_eq_true] at hc
    rw [hc]
    have hc' : containsSubChars "/upload/".toList url.toList = false := hc
    have : ¬ (findSplit "/upload/".toList url.toList).isSome = true := by
      rw [findSplit_isSome_iff_contains _ (by decide), hc']
      simp
    have h2 := (two_le_splitOnSub_length_iff "/upload/".toList url.toList)
    have : ¬ 2 ≤ (splitOnSub "/upload/".toList url.toList).length := by
      intro hle
      exact this (h2.mp hle)
    exact decide_eq_false (by omega)

/-- C9.  `getOptimizedVideoUrl` is defined (does not throw) exactly on
urls containing `/upload/` — on any other url the indexing
`split('/upload/')[1]` yields `undefined` and the call throws — and for
every retry attempt of 3 or more it returns the original url
unchanged. -/
theorem cloudinary_optimizer_spec :
    (∀ (url : String) (r : Nat),
      (getOptimizedVideoUrl url r).isSome = jsIncludes url "/upload/") ∧
    (∀ (url : String) (r : Nat), 3 ≤ r →
      jsIncludes url "/upload/" = true →
      getOptimizedVideoUrl url r = some url) := by
  constructor
  · intro url r
    rw [← jsSplit_upload_isSome url]
    unfold getOptimizedVideoUrl
    cases h : (jsSplit url "/upload/")[1]? with
    | none => simp [h]
    | some p => simp [h]
  · intro url r hr hc
    obtain ⟨k, rfl⟩ : ∃ k, r = k + 3 := ⟨r - 3, by omega⟩
    have hs : ((jsSplit url "/upload/")[1]?).isSome = true := by
      rw [jsSplit_upload_isSome url]
      exact hc
    unfold getOptimizedVideoUrl
    cases h : (jsSplit url "/upload/")[1]? with
    | none => rw [h] at hs; simp at hs
    | some p => simp [h]

/-- Witness for `cloudinary_optimizer_spec` at a concrete Cloudinary url
and retry attempt 3. -/
theorem cloudinary_optimizer_spec_witness :
    getOptimizedVideoUrl "https://r.cloudinary.com/d/video/upload/v1/x.mp4" 3 =
      some "https://r.cloudinary.com/d/video/upload/v1/x.mp4" :=
  cloudinary_optimizer_spec.2 "https://r.cloudinary.com/d/video/upload/v1/x.mp4"
    3 (by decide) (by decide)

/-! ## C10: preload deduplication -/

theorem lookupAssoc_eq {β : Type} (l : List (String × β)) (k : String) :
    lookupAssoc l k = (l.find? (fun p => p.1 == k)).map Prod.snd := by
  unfold lookupAssoc
  cases l.find? (fun p => p.1 == k) <;> rfl

theorem find?_key_cons {β : Type} (q : String) (p : String × β)
    (t : List (String × β)) :
    List.find? (fun r => r.1 == q) (p :: t) =
      if p.1 == q then some p else List.find? (fun r => r.1 == q) t := by
  by_cases h : (p.1 == q) = true
  · rw [if_pos h]
    exact List.find?_cons_of_pos t h
  · rw [if_neg h]
    exact List.find?_cons_of_neg t h

theorem find?_map_keypreserving {β : Type} (f : String × β → String × β)
    (hf : ∀ p, (f p).1 = p.1) (q : String) :
    ∀ l : List (String × β),
      (l.map f).find? (fun r => r.1 == q) =
        (l.find? (fun r => r.1 == q)).map f := by
  intro l
  induction l with
  | nil => rfl
  | cons p t ih =>
    simp only [List.map_cons]
    rw [find?_key_cons, find?_key_cons, hf]
    by_cases h : (p.1 == q) = true
    · rw [if_pos h, if_pos h]
      rfl
    · rw [if_neg h, if_neg h]
      exact ih

theorem lookupAssoc_map_keep {β : Type} (url u : String) (hne : u ≠ url)
    (g : β → β) (l : List (String × β)) :
    lookupAssoc (l.map
      (fun p => if p.1 == url then (p.1, g p.2) else p)) u =
      lookupAssoc l u := by
  rw [lookupAssoc_eq, lookupAssoc_eq,
    find?_map_keypreserving _ (fun p => by by_cases h : (p.1 == url) = true <;> simp [h]) u]
  cases hfind : l.find? (fun r => r.1 == u) with
  | none => rfl
  | some p =>
    have hp := List.find?_some hfind
    have hpu : p.1 = u := by simpa using hp
    have hpne : (p.1 == url) = false := by
      simp only [beq_eq_false_iff_ne, ne_eq, hpu]
      exact hne
    simp [hpu, hne]

/-- C10.  With the circuit closed, a `preloadVideo` call for an
already-loaded url resolves immediately with the cached element and
changes only that entry's `lastUsed` (pool, in-use and in-flight state
untouched, all other entries unchanged); a call for a url with a preload
in flight returns the in-flight promise and changes nothing, so two
concurrent calls for one url consume at most one pool element. -/
theorem preload_dedup_spec :
    (∀ (now : Nat) (url : String) (st : PreloaderState)
        (pv : PreloadedVideo),
      isCircuitOpen now st = false →
      lookupAssoc st.preloaded url = some pv →
      pv.loaded = true →
      preloadVideo now url st =
        (.resolvedCached pv.element,
         { st with
            preloaded := st.preloaded.map
              (fun p => if p.1 == url then (p.1, { p.2 with lastUsed := now })
                        else p) }) ∧
      (∀ u : String, u ≠ url →
        lookupAssoc (preloadVideo now url st).2.preloaded u =
          lookupAssoc st.preloaded u) ∧
      (preloadVideo now url st).2.available = st.available ∧
      (preloadVideo now url st).2.inUse = st.inUse ∧
      (preloadVideo now url st).2.inFlight = st.inFlight) ∧
    (∀ (now : Nat) (url : String) (st : PreloaderState),
      isCircuitOpen now st = false →
      (∀ pv, lookupAssoc st.preloaded url = some pv → pv.loaded = false) →
      st.inFlight.contains url = true →
      preloadVideo now url st = (.joinedInFlight, st)) := by
  constructor
  · intro now url st pv hcirc hlook hloaded
    have heq : preloadVideo now url st =
        (.resolvedCached pv.element,
         { st with
            preloaded := st.preloaded.map
              (fun p => if p.1 == url then (p.1, { p.2 with lastUsed := now })
                        else p) }) := by
      unfold preloadVideo
      rw [hcirc]
      simp only [Bool.false_eq_true, if_false, hlook, hloaded, if_true]
    have h3 : (preloadVideo now url st).2.preloaded =
        st.preloaded.map
          (fun p => if p.1 == url then (p.1, { p.2 with lastUsed := now })
                    else p) := by
      rw [heq]
    refine ⟨heq, ?_, ?_, ?_, ?_⟩
    · intro u hu
      rw [h3]
      exact lookupAssoc_map_keep url u hu
        (fun v => { v with lastUsed := now }) st.preloaded
    · rw [heq]
    · rw [heq]
    · rw [heq]
  · intro now url st hcirc hnotloaded hinflight
    unfold preloadVideo
    rw [hcirc]
    simp only [Bool.false_eq_true, if_false]
    cases hlook : lookupAssoc st.preloaded url with
    | none =>
      dsimp only
      unfold preloadVideoStart
      rw [hinflight]
      simp
    | some pv =>
      dsimp only
      rw [hnotloaded pv hlook]
      simp only [Bool.false_eq_true, if_false]
      unfold preloadVideoStart
      rw [hinflight]
      simp

/-- Witness for `preload_dedup_spec`: a second call for an in-flight url
joins the existing promise and leaves the state unchanged. -/
theorem preload_dedup_spec_witness :
    preloadVideo 10 "a"
      { preloaded := [], available := [7], inUse := [("a", 3)],
        inFlight := ["a"], consecutiveFailures := 0, circuitOpenUntil := 0,
        nextElemId := 0 } =
      (.joinedInFlight,
       { preloaded := [], available := [7], inUse := [("a", 3)],
         inFlight := ["a"], consecutiveFailures := 0, circuitOpenUntil := 0,
         nextElemId := 0 }) :=
  preload_dedup_spec.2 10 "a"
    { preloaded := [], available := [7], inUse := [("a", 3)],
      inFlight := ["a"], consecutiveFailures := 0, circuitOpenUntil := 0,
      nextElemId := 0 }
    (by decide) (by intro pv h; cases h) (by decide)

/-! ## C3: bounded pool invariant -/

/-- The preloader operations the pool bound is stated over. -/
inductive PoolOp where
  | getVideo
  | returnVideo (video : Nat) (url : String)
  | cleanup
  | clear
  deriving DecidableEq, Repr

/-- Apply one pool operation to the preloader state. -/
def applyPoolOp (m : Bool) (st : PreloaderState) (op : PoolOp) :
    PreloaderState :=
  match op with
  | .getVideo => (getVideoFromPool st).2
  | .returnVideo v u => returnVideoToPool m v u st
  | .cleanup => cleanupLRU m st
  | .clear => clearPreloadedVideos m st

theorem returnVideoToPool_bound (m : Bool) (v : Nat) (u : String)
    (st : PreloaderState)
    (h : st.available.length ≤ MAX_VIDEO_POOL_SIZE m) :
    (returnVideoToPool m v u st).available.length ≤
      MAX_VIDEO_POOL_SIZE m := by
  rw [returnVideoToPool_available]
  split
  · rename_i hlt
    simp only [List.length_append, List.length_cons, List.length_nil]
    omega
  · exact h

theorem getVideoFromPool_bound (st : PreloaderState)
    (M : Nat) (h : st.available.length ≤ M) :
    (getVideoFromPool st).2.available.length ≤ M := by
  unfold getVideoFromPool
  cases hlast : st.available.getLast? with
  | none => exact h
  | some v =>
    simp only [List.length_dropLast]
    omega

theorem cleanupLRU_bound (m : Bool) (st : PreloaderState)
    (h : st.available.length ≤ MAX_VIDEO_POOL_SIZE m) :
    (cleanupLRU m st).available.length ≤ MAX_VIDEO_POOL_SIZE m := by
  simp only [cleanupLRU]
  split
  · exact h
  · exact foldl_preserve
      (fun s => s.available.length ≤ MAX_VIDEO_POOL_SIZE m)
      (fun (s : PreloaderState) (e : String × PreloadedVideo) =>
        let s₁ := returnVideoToPool m e.2.element e.1 s
        { s₁ with preloaded := assocDelete e.1 s₁.preloaded })
      (fun s e hs => returnVideoToPool_bound m e.2.element e.1 s hs) _ st h

theorem clearPreloadedVideos_bound (m : Bool) (st : PreloaderState)
    (h : st.available.length ≤ MAX_VIDEO_POOL_SIZE m) :
    (clearPreloadedVideos m st).available.length ≤
      MAX_VIDEO_POOL_SIZE m := by
  unfold clearPreloadedVideos
  exact foldl_preserve
    (fun s => s.available.length ≤ MAX_VIDEO_POOL_SIZE m)
    (fun (s : PreloaderState) (e : String × PreloadedVideo) =>
      returnVideoToPool m e.2.element e.1 s)
    (fun s e hs => returnVideoToPool_bound m e.2.element e.1 s hs) _ st h

/-- C3.  From any state whose available list respects the bound — the
initial empty pool in particular — no sequence of pool operations
(`getVideoFromPool`, `returnVideoToPool`, `cleanupLRU`,
`clearPreloadedVideos`) ever pushes the available list beyond
`MAX_VIDEO_POOL_SIZE` (3 on mobile Safari, 5 otherwise);
`returnVideoToPool` always removes the url from the in-use map, and
appends the element exactly when the available list is below the
limit. -/
theorem bounded_pool_invariant :
    MAX_VIDEO_POOL_SIZE true = 3 ∧ MAX_VIDEO_POOL_SIZE false = 5 ∧
    (∀ (m : Bool) (ops : List PoolOp) (st : PreloaderState),
      st.available.length ≤ MAX_VIDEO_POOL_SIZE m →
      (ops.foldl (applyPoolOp m) st).available.length ≤
        MAX_VIDEO_POOL_SIZE m) ∧
    (∀ (m : Bool) (v : Nat) (u : String) (st : PreloaderState),
      lookupAssoc (returnVideoToPool m v u st).inUse u = none ∧
      (st.available.length < MAX_VIDEO_POOL_SIZE m →
        (returnVideoToPool m v u st).available = st.available ++ [v]) ∧
      (MAX_VIDEO_POOL_SIZE m ≤ st.available.length →
        (returnVideoToPool m v u st).available = st.available)) := by
  refine ⟨rfl, rfl, ?_, ?_⟩
  · intro m ops st h
    refine foldl_preserve
      (fun s => s.available.length ≤ MAX_VIDEO_POOL_SIZE m)
      (applyPoolOp m) ?_ ops st h
    intro s op hs
    cases op with
    | getVideo => exact getVideoFromPool_bound s _ hs
    | returnVideo v u => exact returnVideoToPool_bound m v u s hs
    | cleanup => exact cleanupLRU_bound m s hs
    | clear => exact clearPreloadedVideos_bound m s hs
  · intro m v u st
    refine ⟨?_, ?_, ?_⟩
    · rw [returnVideoToPool_inUse]
      exact lookupAssoc_assocDelete u st.inUse
    · intro h
      rw [returnVideoToPool_available, if_pos h]
    · intro h
      rw [returnVideoToPool_available, if_neg (by omega)]

/-- Witness for `bounded_pool_invariant`: a return into a full desktop
pool keeps the available list at five elements. -/
theorem bounded_pool_invariant_witness :
    (([PoolOp.returnVideo 9 "u", PoolOp.getVideo,
        PoolOp.returnVideo 8 "w"].foldl (applyPoolOp false)
      { preloaded := [], available := [1, 2, 3, 4, 5], inUse := [],
        inFlight := [], consecutiveFailures := 0, circuitOpenUntil := 0,
        nextElemId := 0 }).available).length ≤ MAX_VIDEO_POOL_SIZE false :=
  bounded_pool_invariant.2.2.1 false
    [PoolOp.returnVideo 9 "u", PoolOp.getVideo, PoolOp.returnVideo 8 "w"]
    { preloaded := [], available := [1, 2, 3, 4, 5], inUse := [],
      inFlight := [], consecutiveFailures := 0, circuitOpenUntil := 0,
      nextElemId := 0 }
    (by decide)

/-! ## C2: LRU eviction -/

theorem cleanup_foldl_preloaded (m : Bool) :
    ∀ (tr : List (String × PreloadedVideo)) (st : PreloaderState),
      (tr.foldl
        (fun s e =>
          let s₁ := returnVideoToPool m e.2.element e.1 s
          { s₁ with preloaded := assocDelete e.1 s₁.preloaded }) st).preloaded
        = st.preloaded.filter
            (fun x => decide (x.1 ∉ tr.map Prod.fst)) := by
  intro tr
  induction tr with
  | nil =>
    intro st
    simp only [List.foldl_nil]
    rw [List.filter_eq_self.mpr]
    intro a _
    simp
  | cons e tr' ih =>
    intro st
    simp only [List.foldl_cons]
    rw [ih]
    have hstep :
        ((fun (s : PreloaderState) (e : String × PreloadedVideo) =>
          let s₁ := returnVideoToPool m e.2.element e.1 s
          { s₁ with preloaded := assocDelete e.1 s₁.preloaded }) st e).preloaded
        = assocDelete e.1 st.preloaded := by
      simp
    rw [hstep]
    unfold assocDelete
    rw [List.filter_filter]
    apply List.filter_congr
    intro x _
    by_cases h1 : x.1 = e.1 <;> by_cases h2 : x.1 ∈ tr'.map Prod.fst <;>
      simp [h1, h2]

theorem filter_not_mem_perm :
    ∀ (tr kp l : List (String × PreloadedVideo)),
      l.Perm (tr ++ kp) → (l.map Prod.fst).Nodup →
      (l.filter (fun x => decide (x.1 ∉ tr.map Prod.fst))).Perm kp := by
  intro tr
  induction tr with
  | nil =>
    intro kp l hperm hnd
    have : l.filter (fun x => decide (x.1 ∉ ([] : List (String × PreloadedVideo)).map Prod.fst)) = l := by
      rw [List.filter_eq_self.mpr]
      intro a _
      simp
    rw [this]
    simpa using hperm
  | cons e tr' ih =>
    intro kp l hperm hnd
    have hpermf := hperm.filter
      (fun x => decide (x.1 ∉ ((e :: tr').map Prod.fst)))
    have hpe : (decide (e.1 ∉ ((e :: tr').map Prod.fst))) = false := by
      simp
    have hnd2 : (((e :: (tr' ++ kp)).map Prod.fst)).Nodup :=
      (hperm.map Prod.fst).nodup hnd
    rw [List.map_cons, List.nodup_cons] at hnd2
    obtain ⟨he, hndrest⟩ := hnd2
    have hne : ∀ x ∈ tr' ++ kp, x.1 ≠ e.1 := by
      intro x hx hcontra
      exact he (hcontra ▸ List.mem_map_of_mem Prod.fst hx)
    have hfe : (e :: (tr' ++ kp)).filter
        (fun x => decide (x.1 ∉ ((e :: tr').map Prod.fst))) =
        (tr' ++ kp).filter
          (fun x => decide (x.1 ∉ ((e :: tr').map Prod.fst))) :=
      List.filter_cons_of_neg (by simp)
    have hcongr : (tr' ++ kp).filter
        (fun x => decide (x.1 ∉ ((e :: tr').map Prod.fst))) =
        (tr' ++ kp).filter
          (fun x => decide (x.1 ∉ (tr'.map Prod.fst))) := by
      apply List.filter_congr
      intro x hx
      have hx1 : x.1 ≠ e.1 := hne x hx
      by_cases h2 : x.1 ∈ tr'.map Prod.fst <;> simp [hx1, h2]
    have hrest := ih kp (tr' ++ kp) (List.Perm.refl _) hndrest
    rw [List.cons_append] at hpermf
    rw [hfe, hcongr] at hpermf
    exact hpermf.trans hrest

/-- C2.  `MAX_PRELOADED_VIDEOS` is 1 on mobile Safari and 3 otherwise;
when the preloaded map has at most that many entries `cleanupLRU`
changes nothing, and when it has more (its urls being distinct, a `Map`
invariant) it keeps exactly `MAX_PRELOADED_VIDEOS` entries, all drawn
from the original map, and every kept entry's `lastUsed` is at least
every evicted entry's `lastUsed`. -/
theorem lru_eviction_spec :
    MAX_PRELOADED_VIDEOS true = 1 ∧ MAX_PRELOADED_VIDEOS false = 3 ∧
    (∀ (m : Bool) (st : PreloaderState),
      st.preloaded.length ≤ MAX_PRELOADED_VIDEOS m →
      cleanupLRU m st = st) ∧
    (∀ (m : Bool) (st : PreloaderState),
      (st.preloaded.map Prod.fst).Nodup →
      MAX_PRELOADED_VIDEOS m < st.preloaded.length →
      (cleanupLRU m st).preloaded.length = MAX_PRELOADED_VIDEOS m ∧
      (∀ e ∈ (cleanupLRU m st).preloaded, e ∈ st.preloaded) ∧
      (∀ e ∈ (cleanupLRU m st).preloaded, ∀ r ∈ st.preloaded,
        r ∉ (cleanupLRU m st).preloaded →
        r.2.lastUsed ≤ e.2.lastUsed)) := by
  refine ⟨rfl, rfl, ?_, ?_⟩
  · intro m st h
    simp only [cleanupLRU]
    rw [if_pos h]
  · intro m st hnd hlt
    have hcond : ¬ st.preloaded.length ≤ MAX_PRELOADED_VIDEOS m := by omega
    have hres : (cleanupLRU m st).preloaded =
        st.preloaded.filter
          (fun x => decide (x.1 ∉
            (((st.preloaded.insertionSort lastUsedLE).take
              (st.preloaded.length - MAX_PRELOADED_VIDEOS m)).map
                Prod.fst))) := by
      simp only [cleanupLRU]
      rw [if_neg hcond]
      exact cleanup_foldl_preloaded m _ st
    set sorted := st.preloaded.insertionSort lastUsedLE with hsorted_def
    set k := st.preloaded.length - MAX_PRELOADED_VIDEOS m with hk_def
    have hperm0 : sorted.Perm st.preloaded :=
      List.perm_insertionSort lastUsedLE st.preloaded
    have htk : sorted.take k ++ sorted.drop k = sorted :=
      List.take_append_drop k sorted
    have hlperm : st.preloaded.Perm (sorted.take k ++ sorted.drop k) := by
      rw [htk]
      exact hperm0.symm
    have hpermres : ((cleanupLRU m st).preloaded).Perm (sorted.drop k) := by
      rw [hres]
      exact filter_not_mem_perm (sorted.take k) (sorted.drop k)
        st.preloaded hlperm hnd
    have hsortlen : sorted.length = st.preloaded.length :=
      hperm0.length_eq
    have hlen : (cleanupLRU m st).preloaded.length = MAX_PRELOADED_VIDEOS m := by
      rw [hpermres.length_eq, List.length_drop, hsortlen]
      omega
    have hsorted : sorted.Pairwise lastUsedLE :=
      List.sorted_insertionSort lastUsedLE st.preloaded
    have hcross : ∀ a ∈ sorted.take k, ∀ b ∈ sorted.drop k, lastUsedLE a b := by
      have := htk ▸ hsorted
      exact (List.pairwise_append.mp this).2.2
    refine ⟨hlen, ?_, ?_⟩
    · intro e he
      rw [hres] at he
      exact List.mem_of_mem_filter he
    · intro e he r hr hrnot
      have hekp : e ∈ sorted.drop k := (hpermres.mem_iff).mp he
      have hrp : r.1 ∈ (sorted.take k).map Prod.fst := by
        by_contra hcon
        apply hrnot
        rw [hres]
        exact List.mem_filter.mpr ⟨hr, by simpa using hcon⟩
      obtain ⟨r', hr'mem, hr'eq⟩ := List.mem_map.mp hrp
      have hr'l : r' ∈ st.preloaded := by
        apply (hlperm.mem_iff).mpr
        exact List.mem_append.mpr (Or.inl hr'mem)
      have hr'r : r' = r :=
        List.inj_on_of_nodup_map hnd hr'l hr hr'eq
      have hrtr : r ∈ sorted.take k := hr'r ▸ hr'mem
      exact hcross r hrtr e hekp

/-- Witness for `lru_eviction_spec`: a desktop map with five distinct
urls is cut down to exactly three entries. -/
theorem lru_eviction_spec_witness :
    (cleanupLRU false
      { preloaded :=
          [("a", { url := "a", element := 10, loaded := true, lastUsed := 5 }),
           ("b", { url := "b", element := 11, loaded := true, lastUsed := 2 }),
           ("c", { url := "c", element := 12, loaded := true, lastUsed := 9 }),
           ("d", { url := "d", element := 13, loaded := true, lastUsed := 1 }),
           ("e", { url := "e", element := 14, loaded := true, lastUsed := 7 })],
        available := [], inUse := [], inFlight := [],
        consecutiveFailures := 0, circuitOpenUntil := 0,
        nextElemId := 0 }).preloaded.length = MAX_PRELOADED_VIDEOS false :=
  (lru_eviction_spec.2.2.2 false
    { preloaded :=
        [("a", { url := "a", element := 10, loaded := true, lastUsed := 5 }),
         ("b", { url := "b", element := 11, loaded := true, lastUsed := 2 }),
         ("c", { url := "c", element := 12, loaded := true, lastUsed := 9 }),
         ("d", { url := "d", element := 13, loaded := true, lastUsed := 1 }),
         ("e", { url := "e", element := 14, loaded := true, lastUsed := 7 })],
      available := [], inUse := [], inFlight := [],
      consecutiveFailures := 0, circuitOpenUntil := 0,
      nextElemId := 0 } (by decide) (by decide)).1
